import Mathlib

/-!
Verification of the employee performance-influence simulation (src/App.py).

Shallow embedding of the simulation engine in `src/App.py`:

* statuses are the Python string literals used by the source
  ("high_performer", "neutral", "engaged", "disengaged");
* Python's global `random` module is embedded as an explicit stream of
  rationals `u : Nat → ℚ` (each `random.random()` call reads `u t` and
  advances the index `t`; `random.random()` returns values in `[0, 1)`,
  which appears as a hypothesis `0 ≤ u k` where a proof needs it);
* the employee dict `{0 : Employee, 1 : Employee, ...}` (whose keys are
  exactly `0 .. N-1` inserted in ascending order, so dict iteration order
  is ascending node order) is embedded as a `List Employee` indexed by
  node id;
* floats are embedded as rationals;
* library calls that are external to the repository
  (`networkx.barabasi_albert_graph`, `random.sample`, `random.choice`,
  `numpy.convolve`) are embedded as deterministic functions of the same
  explicit random stream, following their documented behaviour
  (`nx.spring_layout` draws from numpy's separate random stream and only
  affects plotting positions, never the simulation state or the metric
  histories, so it is not modelled).
-/

namespace App

/-- The explicit random stream standing for Python's seeded global
`random` generator: position `t` holds the value of the `t`-th
`random.random()` draw.  A seed determines the whole stream, so "same
seed" is embedded as "same stream and same starting index". -/
abbrev RandStream := Nat → ℚ

/-- `0 ≤ u k` for every draw: the contract of Python's `random.random()`,
whose results lie in `[0, 1)`. -/
def NonnegStream (u : RandStream) : Prop := ∀ k, 0 ≤ u k

/-- Maps one uniform draw `r ∈ [0,1)` to an integer index below `n`,
standing for the stdlib's internal `_randbelow` (used by `random.choice`
and `random.sample`).  Clamped so the definition is total even for an
out-of-contract `r`. -/
def natBelow (r : ℚ) (n : Nat) : Nat := min (r * (n : ℚ)).floor.toNat (n - 1)

/-- `moving_average`'s convolution step: `np.convolve(a, v, mode='valid')`
for `v.length ≤ a.length` — output index `i` is
`Σ_j a[i+j] * v[v.length-1-j]` (convolution reverses the kernel). -/
def convolveValid (a v : List ℚ) : List ℚ :=
  (List.range (a.length - v.length + 1)).map fun i =>
    ((List.range v.length).map fun j =>
      a.getD (i + j) 0 * v.getD (v.length - 1 - j) 0).sum

/-- `moving_average(data, window_size)` from src/App.py: returns `data`
unchanged when `len(data) < window_size`, otherwise
`np.convolve(data, np.ones(w)/w, mode='valid')`. -/
def moving_average (data : List ℚ) (window_size : Nat) : List ℚ :=
  if data.length < window_size then data
  else convolveValid data (List.replicate window_size (1 / (window_size : ℚ)))

/-- One simulated employee: `Employee.__init__` stores the node id, a
status string, the influence capacity, and both timers start at 0. -/
structure Employee where
  unique_id : Nat
  status : String
  capacity : Nat
  influence_timer : Nat
  engagement_timer : Nat
  deriving DecidableEq, Repr

instance : Inhabited Employee := ⟨⟨0, "", 1, 0, 0⟩⟩

/-- The four status strings the source ever assigns. -/
def validStatuses : List String :=
  ["high_performer", "neutral", "engaged", "disengaged"]

/-- The inner loop of `Employee.interact`: walk the colleague list; for
each colleague currently "neutral", draw `random.random()` and on success
(`r < influence_probability * (1.0 / colleague.capacity)`) overwrite that
colleague's `influence_timer` with the influencer's `capacity`.  `es` is
the live employee store (Python mutates the shared objects in place),
`t` the random-stream index. -/
def interactLoop (u : RandStream) (selfCap : Nat) (p : ℚ) :
    List Nat → List Employee → Nat → List Employee × Nat
  | [], es, t => (es, t)
  | nId :: rest, es, t =>
    let c := es.getD nId default
    if c.status = "neutral" then
      if u t < p * (1 / (c.capacity : ℚ)) then
        interactLoop u selfCap p rest
          (es.set nId { c with influence_timer := selfCap }) (t + 1)
      else
        interactLoop u selfCap p rest es (t + 1)
    else
      interactLoop u selfCap p rest es t

/-- `Employee.interact(self, colleagues, influence_probability)`: a no-op
unless `self.status == "high_performer"`; otherwise runs the colleague
loop. -/
def Employee.interact (selfE : Employee) (u : RandStream) (p : ℚ)
    (colleagues : List Nat) (es : List Employee) (t : Nat) :
    List Employee × Nat :=
  if selfE.status = "high_performer" then
    interactLoop u selfE.capacity p colleagues es t
  else (es, t)

/-- `Employee.update_status(self)`: a neutral employee with a positive
`influence_timer` decrements it and, on reaching zero, becomes a
high performer with `engagement_timer = 3`; a high performer with a
positive `engagement_timer` decrements it and, on reaching zero, resolves
by a coin flip (`random.random() > 0.5`) to "engaged" or "disengaged". -/
def Employee.update_status (e : Employee) (u : RandStream) (t : Nat) :
    Employee × Nat :=
  if e.status = "neutral" ∧ 0 < e.influence_timer then
    let it := e.influence_timer - 1
    if it = 0 then
      ({ e with influence_timer := it, status := "high_performer",
                engagement_timer := 3 }, t)
    else
      ({ e with influence_timer := it }, t)
  else if e.status = "high_performer" ∧ 0 < e.engagement_timer then
    let et := e.engagement_timer - 1
    if et = 0 then
      ({ e with engagement_timer := et,
                status := if u t > 1 / 2 then "engaged" else "disengaged" },
       t + 1)
    else
      ({ e with engagement_timer := et }, t)
  else (e, t)

/-- The interaction graph: node set `0 .. n-1` plus the edge list in
insertion order (networkx keeps adjacency in insertion order). -/
structure Graph where
  n : Nat
  edges : List (Nat × Nat)
  deriving DecidableEq, Repr

/-- `G.neighbors(v)`: endpoints of edges incident to `v`, in edge
insertion order. -/
def Graph.neighbors (G : Graph) (v : Nat) : List Nat :=
  G.edges.filterMap fun e =>
    if e.1 = v then some e.2 else if e.2 = v then some e.1 else none

/-- First pass of `PerformanceInfluenceModel.step`: iterate the employee
dict in node order, each node interacting with the *live* store (the
source iterates `self.employees.items()` and mutates the shared
`Employee` objects). -/
def interactPass (u : RandStream) (G : Graph) (p : ℚ) :
    List Nat → List Employee → Nat → List Employee × Nat
  | [], es, t => (es, t)
  | node :: rest, es, t =>
    let r := (es.getD node default).interact u p (G.neighbors node) es t
    interactPass u G p rest r.1 r.2

/-- Second pass of `PerformanceInfluenceModel.step`: update every
employee in order, counting neutral→high_performer promotions
(`influences`), high_performer→engaged and high_performer→disengaged
resolutions. Returns the updated store, the three counters and the new
stream index. -/
def updatePass (u : RandStream) :
    List Employee → Nat → List Employee × Nat × Nat × Nat × Nat
  | [], t => ([], 0, 0, 0, t)
  | e :: rest, t =>
    let r1 := e.update_status u t
    let r := updatePass u rest r1.2
    (r1.1 :: r.1,
     (if e.status = "neutral" ∧ r1.1.status = "high_performer"
      then r.2.1 + 1 else r.2.1),
     (if e.status = "high_performer" ∧ r1.1.status = "engaged"
      then r.2.2.1 + 1 else r.2.2.1),
     (if e.status = "high_performer" ∧ r1.1.status = "disengaged"
      then r.2.2.2.1 + 1 else r.2.2.2.1),
     r.2.2.2.2)

/-- The mutable model object of `PerformanceInfluenceModel`: graph,
influence probability, employee store and the four append-only per-step
histories. -/
structure PerformanceInfluenceModel where
  num_employees : Nat
  influence_probability : ℚ
  G : Graph
  employees : List Employee
  history : List (List String)
  influence_counts : List Nat
  engaged_counts : List Nat
  disengaged_counts : List Nat
  deriving DecidableEq, Repr

/-- `PerformanceInfluenceModel.step`: the interaction pass over all nodes
against the live store, then the update pass with transition counting,
then append the step's counters and the full status snapshot to the
histories. -/
def stepModel (u : RandStream) (m : PerformanceInfluenceModel) (t : Nat) :
    PerformanceInfluenceModel × Nat :=
  let r1 := interactPass u m.G m.influence_probability
    (List.range m.employees.length) m.employees t
  let r2 := updatePass u r1.1 r1.2
  ({ m with
      employees := r2.1,
      influence_counts := m.influence_counts ++ [r2.2.1],
      engaged_counts := m.engaged_counts ++ [r2.2.2.1],
      disengaged_counts := m.disengaged_counts ++ [r2.2.2.2.1],
      history := m.history ++ [r2.1.map (·.status)] }, r2.2.2.2.2)

/-- The driver loop `for step_num in range(1, steps+1): model.step(...)`. -/
def runSteps (u : RandStream) (m : PerformanceInfluenceModel) (t : Nat) :
    Nat → PerformanceInfluenceModel × Nat
  | 0 => (m, t)
  | k + 1 =>
    let r := stepModel u m t
    runSteps u r.1 r.2 k

/-- One selection round of `random.sample`: pick a position in the pool
uniformly, emit the element there, and recurse on the pool with that
position removed (sampling without replacement, as the stdlib does). -/
def sampleLoop (u : RandStream) : Nat → List Nat → Nat → List Nat × Nat
  | 0, _, t => ([], t)
  | k + 1, pool, t =>
    let j := natBelow (u t) pool.length
    let r := sampleLoop u k (pool.eraseIdx j) (t + 1)
    (pool.getD j 0 :: r.1, r.2)

/-- `random.sample(population, k)`: raises
`ValueError("Sample larger than population or is negative")` when
`k > len(population)`; otherwise returns `k` elements sampled without
replacement. -/
def sample (u : RandStream) (population : List Nat) (k : Nat) (t : Nat) :
    Except String (List Nat × Nat) :=
  if population.length < k then
    .error "Sample larger than population or is negative"
  else
    .ok (sampleLoop u k population t)

/-- `random.choice([1, 2, 3, 4])`: one capacity draw. -/
def choiceCapacity (u : RandStream) (t : Nat) : Nat × Nat :=
  ([1, 2, 3, 4].getD (natBelow (u t) 4) 1, t + 1)

/-- Models networkx's `_random_subset(seq, m, rng)` used by
`barabasi_albert_graph`: repeatedly `rng.choice(seq)` and collect into a
set.  The unbounded retry-until-`m`-distinct loop is embedded as `m`
draws followed by deduplication (deterministic in the stream, which is
all the claims about this builder use). -/
def randomSubset (u : RandStream) (seq : List Nat) (m t : Nat) : List Nat × Nat :=
  match m with
  | 0 => ([], t)
  | m' + 1 =>
    let x := seq.getD (natBelow (u t) seq.length) 0
    let r := randomSubset u seq m' (t + 1)
    (if x ∈ r.1 then r.1 else x :: r.1, r.2)

/-- The attachment loop of `barabasi_albert_graph`: node `source` links to
the current `m` targets, the target and source multiplicities extend the
repeated-nodes list, and the next targets are a fresh random subset. -/
def baLoop (u : RandStream) (m : Nat) :
    Nat → Nat → List Nat → List Nat → List (Nat × Nat) → Nat →
    List (Nat × Nat) × Nat
  | 0, _, _, _, edges, t => (edges, t)
  | fuel + 1, source, targets, repeated, edges, t =>
    let edges1 := edges ++ targets.map fun tgt => (source, tgt)
    let repeated1 := repeated ++ targets ++ List.replicate m source
    let r := randomSubset u repeated1 m t
    baLoop u m fuel (source + 1) r.1 repeated1 edges1 r.2

/-- Models `nx.barabasi_albert_graph(n, m)`: rejects `m < 1` or `m ≥ n`
(networkx raises `NetworkXError`), then attaches nodes `m .. n-1` each to
`m` preferentially chosen targets, starting from targets `0 .. m-1`. -/
def barabasi_albert_graph (u : RandStream) (n m t : Nat) :
    Except String (Graph × Nat) :=
  if m < 1 ∨ n ≤ m then
    .error "BarabasiAlbertError"
  else
    let r := baLoop u m (n - m) m (List.range m) [] [] t
    .ok ({ n := n, edges := r.1 }, r.2)

/-- The configuration the presentation layer passes to the model
constructor (`get_model_params`, minus the UI). -/
structure Params where
  N : Nat
  initial_high_performers : Nat
  influence_probability : ℚ
  steps : Nat
  deriving DecidableEq, Repr

/-- The capacity-assignment loop of `PerformanceInfluenceModel.__init__`:
for each node in order, draw a capacity and create the `Employee`, a
high performer iff the node is in the sampled seed list. -/
def initEmployees (u : RandStream) (seeds : List Nat) :
    List Nat → Nat → List Employee × Nat
  | [], t => ([], t)
  | node :: rest, t =>
    let cap := choiceCapacity u t
    let status := if node ∈ seeds then "high_performer" else "neutral"
    let r := initEmployees u seeds rest cap.2
    (⟨node, status, cap.1, 0, 0⟩ :: r.1, r.2)

/-- `PerformanceInfluenceModel.__init__`: build the Barabási–Albert graph
(m = 3), sample `initial_high_performers` seed nodes without replacement
from all nodes, then create one employee per node with a random capacity
in {1,2,3,4}; histories start empty.  (`nx.spring_layout` consumes
numpy's separate stream and only computes plot positions, so it is not
part of the model state.) -/
def initModel (u : RandStream) (params : Params) (t : Nat) :
    Except String (PerformanceInfluenceModel × Nat) :=
  match barabasi_albert_graph u params.N 3 t with
  | .error e => .error e
  | .ok rG =>
    match sample u (List.range params.N) params.initial_high_performers rG.2 with
    | .error e => .error e
    | .ok rS =>
      let rE := initEmployees u rS.1 (List.range params.N) rS.2
      .ok ({ num_employees := params.N,
             influence_probability := params.influence_probability,
             G := rG.1,
             employees := rE.1,
             history := [],
             influence_counts := [],
             engaged_counts := [],
             disengaged_counts := [] }, rE.2)

/-- The whole run the "Run Simulation" button triggers: construct the
model, then execute `params.steps` steps. -/
def runSimulation (u : RandStream) (params : Params) (t : Nat) :
    Except String (PerformanceInfluenceModel × Nat) :=
  match initModel u params t with
  | .error e => .error e
  | .ok r => .ok (runSteps u r.1 r.2 params.steps)

/-- The per-step metric histories of a finished run: influence counts,
engaged counts, disengaged counts and the per-step status snapshots. -/
def metricHistories (r : Except String (PerformanceInfluenceModel × Nat)) :
    Except String (List Nat × List Nat × List Nat × List (List String)) :=
  r.map fun (m, _) =>
    (m.influence_counts, m.engaged_counts, m.disengaged_counts, m.history)

/-- The snapshot-then-commit interaction pass the specification asks for.
Modelled from the spec: "compute all proposed changes against an
immutable per-step view, then apply them atomically".  `proposeLoop`
computes one influencer's proposed writes, each a pair
(target node, proposed `influence_timer` value = the influencer's
capacity), reading colleague statuses and capacities only from the
immutable pre-step store `emps0`. -/
def proposeLoop (u : RandStream) (emps0 : List Employee) (selfCap : Nat)
    (p : ℚ) : List Nat → Nat → List (Nat × Nat) × Nat
  | [], t => ([], t)
  | nId :: rest, t =>
    let c := emps0.getD nId default
    if c.status = "neutral" then
      if u t < p * (1 / (c.capacity : ℚ)) then
        let r := proposeLoop u emps0 selfCap p rest (t + 1)
        ((nId, selfCap) :: r.1, r.2)
      else proposeLoop u emps0 selfCap p rest (t + 1)
    else proposeLoop u emps0 selfCap p rest t

/-- Proposals of a single node against the immutable pre-step store:
empty unless the node is a high performer there. -/
def proposeNode (u : RandStream) (emps0 : List Employee) (G : Graph)
    (p : ℚ) (node t : Nat) : List (Nat × Nat) × Nat :=
  let selfE := emps0.getD node default
  if selfE.status = "high_performer" then
    proposeLoop u emps0 selfE.capacity p (G.neighbors node) t
  else ([], t)

/-- All proposals of one step, nodes in iteration order, every read
taken from the immutable pre-step store `emps0`. -/
def proposePass (u : RandStream) (emps0 : List Employee) (G : Graph)
    (p : ℚ) : List Nat → Nat → List (Nat × Nat) × Nat
  | [], t => ([], t)
  | node :: rest, t =>
    let r1 := proposeNode u emps0 G p node t
    let r2 := proposePass u emps0 G p rest r1.2
    (r1.1 ++ r2.1, r2.2)

/-- Commit a proposal list: apply each proposed `influence_timer` write
in order. -/
def commitProps (es : List Employee) (props : List (Nat × Nat)) :
    List Employee :=
  props.foldl
    (fun es q => es.set q.1 { es.getD q.1 default with influence_timer := q.2 })
    es

/-- `PerformanceInfluenceModel.step` re-architected as the specification
describes: compute all interaction proposals against the immutable
pre-step store, commit them, then run the (purely per-agent) update pass
and record metrics. -/
def stepSnapshot (u : RandStream) (m : PerformanceInfluenceModel) (t : Nat) :
    PerformanceInfluenceModel × Nat :=
  let rP := proposePass u m.employees m.G m.influence_probability
    (List.range m.employees.length) t
  let es1 := commitProps m.employees rP.1
  let r2 := updatePass u es1 rP.2
  ({ m with
      employees := r2.1,
      influence_counts := m.influence_counts ++ [r2.2.1],
      engaged_counts := m.engaged_counts ++ [r2.2.2.1],
      disengaged_counts := m.disengaged_counts ++ [r2.2.2.2.1],
      history := m.history ++ [r2.1.map (·.status)] }, r2.2.2.2.2)

/-- The successful writes aimed at node `c`, in pass order. -/
def proposalsFor (props : List (Nat × Nat)) (c : Nat) : List (Nat × Nat) :=
  props.filter fun q => q.1 = c

/-- Two employee stores of equal length agreeing everywhere on every
field except possibly `influence_timer` — what the interaction pass is
allowed to change. -/
def AgreesExceptTimer (es0 es : List Employee) : Prop :=
  es0.length = es.length ∧
  ∀ i, (es.getD i default).status = (es0.getD i default).status ∧
       (es.getD i default).capacity = (es0.getD i default).capacity ∧
       (es.getD i default).engagement_timer =
         (es0.getD i default).engagement_timer ∧
       (es.getD i default).unique_id = (es0.getD i default).unique_id

/-- The all-zero random stream, used to instantiate theorems on concrete
inputs. -/
def zeroStream : RandStream := fun _ => 0

/-- The model `initModel` produces from the all-zero stream with `N = 4`
and one initial high performer (used to instantiate theorems on a
concrete run; `initModel` stores but never reads the influence
probability, so it stays a parameter). -/
def exampleModel (p : ℚ) : PerformanceInfluenceModel :=
  ⟨4, p, ⟨4, [(3, 0), (3, 1), (3, 2)]⟩,
   [⟨0, "high_performer", 1, 0, 0⟩, ⟨1, "neutral", 1, 0, 0⟩,
    ⟨2, "neutral", 1, 0, 0⟩, ⟨3, "neutral", 1, 0, 0⟩], [], [], [], []⟩

/-- The model `initModel` produces from the all-zero stream with `N = 4`
and four initial high performers (every agent a seed). -/
def exampleModelSeeds (p : ℚ) : PerformanceInfluenceModel :=
  ⟨4, p, ⟨4, [(3, 0), (3, 1), (3, 2)]⟩,
   [⟨0, "high_performer", 1, 0, 0⟩, ⟨1, "high_performer", 1, 0, 0⟩,
    ⟨2, "high_performer", 1, 0, 0⟩, ⟨3, "high_performer", 1, 0, 0⟩],
   [], [], [], []⟩

/-! Helper lemmas -/

theorem getD_set_self {α : Type} [Inhabited α] (l : List α) (i : Nat) (a : α)
    (h : i < l.length) : (l.set i a).getD i default = a := by
  rw [List.getD_eq_getElem _ _ (by simpa using h)]
  simp [List.getElem_set]

theorem getD_set_ne {α : Type} [Inhabited α] (l : List α) {i j : Nat} (a : α)
    (h : i ≠ j) : (l.set i a).getD j default = l.getD j default := by
  rw [List.getD_eq_getElem?_getD, List.getD_eq_getElem?_getD,
    List.getElem?_set_ne h]

theorem sum_map_mul_const (l : List Nat) (f : Nat → ℚ) (c : ℚ) :
    (l.map fun x => f x * c).sum = (l.map f).sum * c := by
  induction l with
  | nil => simp
  | cons x xs ih => simp [ih, add_mul]

theorem window_take_drop (data : List ℚ) (i w : Nat) (h : i + w ≤ data.length) :
    (data.drop i).take w = (List.range w).map fun j => data.getD (i + j) 0 := by
  apply List.ext_getElem
  · simp
    omega
  · intro n h1 h2
    have hn : n < w := by simpa using h2
    have hin : i + n < data.length := by omega
    simp only [List.getElem_take, List.getElem_drop, List.getElem_map,
      List.getElem_range]
    rw [List.getD_eq_getElem _ _ hin]

theorem agreesExceptTimer_refl (es : List Employee) : AgreesExceptTimer es es :=
  ⟨rfl, fun _ => ⟨rfl, rfl, rfl, rfl⟩⟩

theorem agrees_set_timer {es0 es : List Employee}
    (h : AgreesExceptTimer es0 es) (nId v : Nat) :
    AgreesExceptTimer es0
      (es.set nId { es.getD nId default with influence_timer := v }) := by
  obtain ⟨hlen, hpt⟩ := h
  refine ⟨by simpa using hlen, fun i => ?_⟩
  by_cases hi : nId = i
  · subst hi
    by_cases hb : nId < es.length
    · rw [getD_set_self _ _ _ hb]
      exact hpt nId
    · have h0 : es.length ≤ nId := le_of_not_lt hb
      rw [List.getD_eq_default _ _ (by simpa using h0)]
      rw [List.getD_eq_default _ _ (by omega)]
      exact ⟨rfl, rfl, rfl, rfl⟩
  · rw [getD_set_ne _ _ hi]
    exact hpt i

theorem interactLoop_agrees (u : RandStream) (cap : Nat) (p : ℚ)
    (es0 : List Employee) :
    ∀ (nbrs : List Nat) (es : List Employee) (t : Nat),
      AgreesExceptTimer es0 es →
      AgreesExceptTimer es0 (interactLoop u cap p nbrs es t).1
  | [], es, t, h => h
  | nId :: rest, es, t, h => by
    by_cases hst : (es.getD nId default).status = "neutral"
    · by_cases hdraw : u t < p * (1 / ((es.getD nId default).capacity : ℚ))
      · have heq : interactLoop u cap p (nId :: rest) es t =
            interactLoop u cap p rest
              (es.set nId { es.getD nId default with influence_timer := cap })
              (t + 1) := by
          simp only [interactLoop]
          rw [if_pos hst, if_pos hdraw]
        rw [heq]
        exact interactLoop_agrees u cap p es0 rest _ (t + 1)
          (agrees_set_timer h nId cap)
      · have heq : interactLoop u cap p (nId :: rest) es t =
            interactLoop u cap p rest es (t + 1) := by
          simp only [interactLoop]
          rw [if_pos hst, if_neg hdraw]
        rw [heq]
        exact interactLoop_agrees u cap p es0 rest es (t + 1) h
    · have heq : interactLoop u cap p (nId :: rest) es t =
          interactLoop u cap p rest es t := by
        simp only [interactLoop]
        rw [if_neg hst]
      rw [heq]
      exact interactLoop_agrees u cap p es0 rest es t h

theorem interact_agrees (selfE : Employee) (u : RandStream) (p : ℚ)
    (nbrs : List Nat) {es0 es : List Employee} (t : Nat)
    (h : AgreesExceptTimer es0 es) :
    AgreesExceptTimer es0 (selfE.interact u p nbrs es t).1 := by
  by_cases hs : selfE.status = "high_performer"
  · simpa [Employee.interact, hs] using
      interactLoop_agrees u selfE.capacity p es0 nbrs es t h
  · simpa [Employee.interact, hs] using h

theorem interactPass_agrees (u : RandStream) (G : Graph) (p : ℚ)
    (es0 : List Employee) :
    ∀ (nodes : List Nat) (es : List Employee) (t : Nat),
      AgreesExceptTimer es0 es →
      AgreesExceptTimer es0 (interactPass u G p nodes es t).1
  | [], es, t, h => h
  | node :: rest, es, t, h => by
    simpa [interactPass] using
      interactPass_agrees u G p es0 rest _ _
        (interact_agrees (es.getD node default) u p (G.neighbors node) t h)

theorem update_status_cases (e : Employee) (u : RandStream) (t : Nat) :
    (e.update_status u t).1.status = e.status ∨
    (e.status = "neutral" ∧ (e.update_status u t).1.status = "high_performer") ∨
    (e.status = "high_performer" ∧
      ((e.update_status u t).1.status = "engaged" ∨
       (e.update_status u t).1.status = "disengaged")) := by
  by_cases h1 : e.status = "neutral" ∧ 0 < e.influence_timer
  · by_cases h2 : e.influence_timer - 1 = 0
    · right; left
      refine ⟨h1.1, ?_⟩
      simp only [Employee.update_status]
      rw [if_pos h1, if_pos h2]
    · left
      simp only [Employee.update_status]
      rw [if_pos h1, if_neg h2]
  · by_cases h3 : e.status = "high_performer" ∧ 0 < e.engagement_timer
    · by_cases h4 : e.engagement_timer - 1 = 0
      · right; right
        refine ⟨h3.1, ?_⟩
        simp only [Employee.update_status]
        rw [if_neg h1, if_pos h3, if_pos h4]
        by_cases h5 : u t > 1 / 2
        · rw [if_pos h5]
          exact Or.inl rfl
        · rw [if_neg h5]
          exact Or.inr rfl
      · left
        simp only [Employee.update_status]
        rw [if_neg h1, if_pos h3, if_neg h4]
    · left
      simp only [Employee.update_status]
      rw [if_neg h1, if_neg h3]

theorem updatePass_length (u : RandStream) :
    ∀ (es : List Employee) (t : Nat), ((updatePass u es t).1).length = es.length
  | [], _ => rfl
  | e :: rest, t => by
    simp [updatePass, updatePass_length u rest]

theorem zeroStream_apply (k : Nat) : zeroStream k = 0 := rfl

theorem natBelow_zero (n : Nat) : natBelow 0 n = 0 := by
  have h : Rat.floor 0 = 0 := rfl
  simp [natBelow, h]

theorem initModel_eval (p : ℚ) (k : Nat) :
    initModel zeroStream ⟨4, 1, p, k⟩ 0 = .ok (exampleModel p, 8) := by
  simp [initModel, barabasi_albert_graph, baLoop, randomSubset, sample,
    sampleLoop, initEmployees, choiceCapacity, natBelow_zero,
    zeroStream_apply, List.range_succ, exampleModel]

theorem initModel_eval_seeds (p : ℚ) (k : Nat) :
    initModel zeroStream ⟨4, 4, p, k⟩ 0 = .ok (exampleModelSeeds p, 11) := by
  simp [initModel, barabasi_albert_graph, baLoop, randomSubset, sample,
    sampleLoop, initEmployees, choiceCapacity, natBelow_zero,
    zeroStream_apply, List.range_succ, exampleModelSeeds]

theorem updatePass_getD (u : RandStream) :
    ∀ (es : List Employee) (t i : Nat), i < es.length →
      ∃ t', ((updatePass u es t).1).getD i default =
        ((es.getD i default).update_status u t').1
  | [], _, i, hi => by simp at hi
  | e :: rest, t, 0, _ => ⟨t, by simp [updatePass]⟩
  | e :: rest, t, i + 1, hi => by
    obtain ⟨t', ht'⟩ :=
      updatePass_getD u rest (e.update_status u t).2 i (by simpa using hi)
    exact ⟨t', by simpa [updatePass] using ht'⟩

theorem interactLoop_eq_commit (u : RandStream) (p : ℚ) (es0 : List Employee)
    (cap : Nat) :
    ∀ (nbrs : List Nat) (es : List Employee) (t : Nat),
      AgreesExceptTimer es0 es →
      interactLoop u cap p nbrs es t =
        (commitProps es (proposeLoop u es0 cap p nbrs t).1,
         (proposeLoop u es0 cap p nbrs t).2)
  | [], es, t, h => rfl
  | nId :: rest, es, t, h => by
    have hst : (es.getD nId default).status = (es0.getD nId default).status :=
      (h.2 nId).1
    have hcap : (es.getD nId default).capacity =
        (es0.getD nId default).capacity := (h.2 nId).2.1
    by_cases hn : (es0.getD nId default).status = "neutral"
    · by_cases hd : u t < p * (1 / ((es0.getD nId default).capacity : ℚ))
      · have hn' : (es.getD nId default).status = "neutral" := by
          rw [hst]; exact hn
        have hd' : u t < p * (1 / ((es.getD nId default).capacity : ℚ)) := by
          rw [hcap]; exact hd
        have hlive : interactLoop u cap p (nId :: rest) es t =
            interactLoop u cap p rest
              (es.set nId { es.getD nId default with influence_timer := cap })
              (t + 1) := by
          simp only [interactLoop]
          rw [if_pos hn', if_pos hd']
        have hprop : proposeLoop u es0 cap p (nId :: rest) t =
            ((nId, cap) :: (proposeLoop u es0 cap p rest (t + 1)).1,
             (proposeLoop u es0 cap p rest (t + 1)).2) := by
          simp only [proposeLoop]
          rw [if_pos hn, if_pos hd]
        rw [hlive, hprop]
        exact interactLoop_eq_commit u p es0 cap rest _ (t + 1)
          (agrees_set_timer h nId cap)
      · have hn' : (es.getD nId default).status = "neutral" := by
          rw [hst]; exact hn
        have hd' : ¬ u t < p * (1 / ((es.getD nId default).capacity : ℚ)) := by
          rw [hcap]; exact hd
        have hlive : interactLoop u cap p (nId :: rest) es t =
            interactLoop u cap p rest es (t + 1) := by
          simp only [interactLoop]
          rw [if_pos hn', if_neg hd']
        have hprop : proposeLoop u es0 cap p (nId :: rest) t =
            proposeLoop u es0 cap p rest (t + 1) := by
          simp only [proposeLoop]
          rw [if_pos hn, if_neg hd]
        rw [hlive, hprop]
        exact interactLoop_eq_commit u p es0 cap rest es (t + 1) h
    · have hn' : ¬ (es.getD nId default).status = "neutral" := by
        rw [hst]; exact hn
      have hlive : interactLoop u cap p (nId :: rest) es t =
          interactLoop u cap p rest es t := by
        simp only [interactLoop]
        rw [if_neg hn']
      have hprop : proposeLoop u es0 cap p (nId :: rest) t =
          proposeLoop u es0 cap p rest t := by
        simp only [proposeLoop]
        rw [if_neg hn]
      rw [hlive, hprop]
      exact interactLoop_eq_commit u p es0 cap rest es t h

theorem interactNode_eq_commit (u : RandStream) (G : Graph) (p : ℚ)
    (es0 : List Employee) (node : Nat) (es : List Employee) (t : Nat)
    (h : AgreesExceptTimer es0 es) :
    (es.getD node default).interact u p (G.neighbors node) es t =
      (commitProps es (proposeNode u es0 G p node t).1,
       (proposeNode u es0 G p node t).2) := by
  have hst : (es.getD node default).status = (es0.getD node default).status :=
    (h.2 node).1
  have hcap : (es.getD node default).capacity =
      (es0.getD node default).capacity := (h.2 node).2.1
  by_cases hs : (es0.getD node default).status = "high_performer"
  · have hs' : (es.getD node default).status = "high_performer" := by
      rw [hst]; exact hs
    have h1 : (es.getD node default).interact u p (G.neighbors node) es t =
        interactLoop u (es.getD node default).capacity p (G.neighbors node)
          es t := by
      simp only [Employee.interact]
      rw [if_pos hs']
    have h2 : proposeNode u es0 G p node t =
        proposeLoop u es0 (es0.getD node default).capacity p
          (G.neighbors node) t := by
      simp only [proposeNode]
      rw [if_pos hs]
    rw [h1, h2, hcap]
    exact interactLoop_eq_commit u p es0 _ (G.neighbors node) es t h
  · have hs' : ¬ (es.getD node default).status = "high_performer" := by
      rw [hst]; exact hs
    have h1 : (es.getD node default).interact u p (G.neighbors node) es t =
        (es, t) := by
      simp only [Employee.interact]
      rw [if_neg hs']
    have h2 : proposeNode u es0 G p node t = ([], t) := by
      simp only [proposeNode]
      rw [if_neg hs]
    rw [h1, h2]
    rfl

theorem interactPass_eq_commit (u : RandStream) (G : Graph) (p : ℚ)
    (es0 : List Employee) :
    ∀ (nodes : List Nat) (es : List Employee) (t : Nat),
      AgreesExceptTimer es0 es →
      interactPass u G p nodes es t =
        (commitProps es (proposePass u es0 G p nodes t).1,
         (proposePass u es0 G p nodes t).2)
  | [], es, t, _ => rfl
  | node :: rest, es, t, h => by
    have hnode := interactNode_eq_commit u G p es0 node es t h
    have hagree1 : AgreesExceptTimer es0
        (commitProps es (proposeNode u es0 G p node t).1) := by
      have hx := interact_agrees (es.getD node default) u p
        (G.neighbors node) t h
      rw [hnode] at hx
      exact hx
    have hrec := interactPass_eq_commit u G p es0 rest
      (commitProps es (proposeNode u es0 G p node t).1)
      (proposeNode u es0 G p node t).2 hagree1
    have happ : commitProps es
        ((proposeNode u es0 G p node t).1 ++
          (proposePass u es0 G p rest (proposeNode u es0 G p node t).2).1) =
        commitProps (commitProps es (proposeNode u es0 G p node t).1)
          (proposePass u es0 G p rest (proposeNode u es0 G p node t).2).1 :=
      List.foldl_append _ _ _ _
    calc interactPass u G p (node :: rest) es t
        = interactPass u G p rest
            (commitProps es (proposeNode u es0 G p node t).1)
            (proposeNode u es0 G p node t).2 := by
          show interactPass u G p rest
              ((es.getD node default).interact u p (G.neighbors node) es t).1
              ((es.getD node default).interact u p (G.neighbors node) es t).2 =
            _
          rw [hnode]
      _ = (commitProps (commitProps es (proposeNode u es0 G p node t).1)
            (proposePass u es0 G p rest (proposeNode u es0 G p node t).2).1,
           (proposePass u es0 G p rest (proposeNode u es0 G p node t).2).2) :=
        hrec
      _ = (commitProps es
            ((proposeNode u es0 G p node t).1 ++
              (proposePass u es0 G p rest (proposeNode u es0 G p node t).2).1),
           (proposePass u es0 G p rest (proposeNode u es0 G p node t).2).2) :=
        by rw [happ]
      _ = (commitProps es (proposePass u es0 G p (node :: rest) t).1,
           (proposePass u es0 G p (node :: rest) t).2) := by
        simp only [proposePass]

theorem commitProps_getD_none :
    ∀ (props : List (Nat × Nat)) (es : List Employee) (c : Nat),
      (proposalsFor props c).getLast? = none →
      (commitProps es props).getD c default = es.getD c default
  | [], es, c, _ => rfl
  | q :: ps, es, c, h => by
    have hqc : ¬ q.1 = c := by
      intro hq
      have : proposalsFor (q :: ps) c = q :: proposalsFor ps c := by
        simp [proposalsFor, List.filter_cons, hq]
      rw [this, List.getLast?_cons] at h
      exact Option.noConfusion h
    have hfil : proposalsFor (q :: ps) c = proposalsFor ps c := by
      simp [proposalsFor, List.filter_cons, hqc]
    rw [hfil] at h
    have hstep : commitProps es (q :: ps) =
        commitProps
          (es.set q.1 { es.getD q.1 default with influence_timer := q.2 })
          ps := rfl
    rw [hstep, commitProps_getD_none ps _ c h, getD_set_ne _ _ hqc]

theorem commitProps_getD_some :
    ∀ (props : List (Nat × Nat)) (es : List Employee) (c : Nat)
      (q : Nat × Nat), c < es.length →
      (proposalsFor props c).getLast? = some q →
      (commitProps es props).getD c default =
        { es.getD c default with influence_timer := q.2 }
  | [], _, _, _, _, h => by
    exact Option.noConfusion h
  | r :: ps, es, c, q, hc, h => by
    by_cases hrc : r.1 = c
    · have hfil : proposalsFor (r :: ps) c = r :: proposalsFor ps c := by
        simp [proposalsFor, List.filter_cons, hrc]
      rw [hfil, List.getLast?_cons] at h
      have hq : (proposalsFor ps c).getLast?.getD r = q := Option.some.inj h
      have hset : (es.set r.1
            { es.getD r.1 default with influence_timer := r.2 }).getD c
              default =
          { es.getD c default with influence_timer := r.2 } := by
        have hx : es.set r.1
            { es.getD r.1 default with influence_timer := r.2 } =
            es.set c { es.getD c default with influence_timer := r.2 } := by
          rw [hrc]
        rw [hx, getD_set_self _ _ _ hc]
      cases hl : (proposalsFor ps c).getLast? with
      | none =>
        have hq' : r = q := by
          rw [hl] at hq
          simpa using hq
        have hnone := commitProps_getD_none ps
          (es.set r.1 { es.getD r.1 default with influence_timer := r.2 }) c hl
        calc (commitProps es (r :: ps)).getD c default
            = (es.set r.1
                { es.getD r.1 default with influence_timer := r.2 }).getD c
                default := hnone
          _ = { es.getD c default with influence_timer := r.2 } := hset
          _ = { es.getD c default with influence_timer := q.2 } := by rw [hq']
      | some r' =>
        have hq' : r' = q := by
          rw [hl] at hq
          simpa using hq
        have hsome := commitProps_getD_some ps
          (es.set r.1 { es.getD r.1 default with influence_timer := r.2 }) c r'
          (by simpa using hc) hl
        calc (commitProps es (r :: ps)).getD c default
            = { (es.set r.1
                  { es.getD r.1 default with influence_timer := r.2 }).getD c
                    default with influence_timer := r'.2 } := hsome
          _ = { es.getD c default with influence_timer := r'.2 } := by
              rw [hset]
          _ = { es.getD c default with influence_timer := q.2 } := by rw [hq']
    · have hfil : proposalsFor (r :: ps) c = proposalsFor ps c := by
        simp [proposalsFor, List.filter_cons, hrc]
      rw [hfil] at h
      have hsome := commitProps_getD_some ps
        (es.set r.1 { es.getD r.1 default with influence_timer := r.2 }) c q
        (by simpa using hc) h
      calc (commitProps es (r :: ps)).getD c default
          = { (es.set r.1
                { es.getD r.1 default with influence_timer := r.2 }).getD c
                  default with influence_timer := q.2 } := hsome
        _ = { es.getD c default with influence_timer := q.2 } := by
            rw [getD_set_ne _ _ hrc]

theorem updatePass_mem (u : RandStream) :
    ∀ (es : List Employee) (t : Nat) (e' : Employee),
      e' ∈ (updatePass u es t).1 →
      ∃ e ∈ es, ∃ t', e' = (e.update_status u t').1
  | [], t, e', h => by simp [updatePass] at h
  | e :: rest, t, e', h => by
    have hstep : (updatePass u (e :: rest) t).1 =
        (e.update_status u t).1 ::
          (updatePass u rest (e.update_status u t).2).1 := rfl
    rw [hstep] at h
    rcases List.mem_cons.mp h with h1 | h2
    · exact ⟨e, by simp, t, h1⟩
    · obtain ⟨e0, he0, t', ht'⟩ := updatePass_mem u rest _ e' h2
      exact ⟨e0, by simp [he0], t', ht'⟩

theorem update_status_valid (e : Employee) (u : RandStream) (t : Nat)
    (h : e.status ∈ validStatuses) :
    (e.update_status u t).1.status ∈ validStatuses := by
  rcases update_status_cases e u t with hs | hs | hs
  · rw [hs]; exact h
  · rw [hs.2]; simp [validStatuses]
  · rcases hs.2 with h2 | h2 <;> rw [h2] <;> simp [validStatuses]

theorem count_sum_eq_length :
    ∀ (l : List String), (∀ x ∈ l, x ∈ validStatuses) →
      ((validStatuses.map fun s => l.count s).sum) = l.length
  | [], _ => by simp [validStatuses]
  | x :: xs, h => by
    have hx : x ∈ validStatuses := h x (by simp)
    have ih := count_sum_eq_length xs fun y hy => h y (by simp [hy])
    simp only [validStatuses, List.mem_cons, List.not_mem_nil, or_false]
      at hx
    rcases hx with h1 | h1 | h1 | h1 <;> subst h1 <;>
      simp [validStatuses, List.count_cons] at ih ⊢ <;> omega

theorem agrees_status_mem {es0 es : List Employee}
    (h : AgreesExceptTimer es0 es) {P : String → Prop}
    (h0 : ∀ e ∈ es0, P e.status) : ∀ e ∈ es, P e.status := by
  intro e he
  obtain ⟨i, hi, hei⟩ := List.getElem_of_mem he
  have hgd : es.getD i default = e := by rw [List.getD_eq_getElem _ _ hi, hei]
  have hst := (h.2 i).1
  have hi0 : i < es0.length := by
    have := h.1
    omega
  have hmem0 : es0.getD i default ∈ es0 := by
    rw [List.getD_eq_getElem _ _ hi0]
    exact List.getElem_mem hi0
  have hP := h0 _ hmem0
  rw [← hgd, hst]
  exact hP

theorem initEmployees_length (u : RandStream) (seeds : List Nat) :
    ∀ (nodes : List Nat) (t : Nat),
      (initEmployees u seeds nodes t).1.length = nodes.length
  | [], _ => rfl
  | node :: rest, t => by
    have hstep : (initEmployees u seeds (node :: rest) t).1 =
        (⟨node, if node ∈ seeds then "high_performer" else "neutral",
          (choiceCapacity u t).1, 0, 0⟩ : Employee) ::
          (initEmployees u seeds rest (choiceCapacity u t).2).1 := rfl
    rw [hstep]
    simp [initEmployees_length u seeds rest]

theorem initEmployees_mem (u : RandStream) (seeds : List Nat) :
    ∀ (nodes : List Nat) (t : Nat) (e : Employee),
      e ∈ (initEmployees u seeds nodes t).1 →
      (e.status = "high_performer" ∨ e.status = "neutral") ∧
        e.influence_timer = 0 ∧ e.engagement_timer = 0
  | [], _, e, h => by simp [initEmployees] at h
  | node :: rest, t, e, h => by
    have hstep : (initEmployees u seeds (node :: rest) t).1 =
        (⟨node, if node ∈ seeds then "high_performer" else "neutral",
          (choiceCapacity u t).1, 0, 0⟩ : Employee) ::
          (initEmployees u seeds rest (choiceCapacity u t).2).1 := rfl
    rw [hstep] at h
    rcases List.mem_cons.mp h with h1 | h2
    · subst h1
      refine ⟨?_, rfl, rfl⟩
      by_cases hn : node ∈ seeds
      · left; simp [hn]
      · right; simp [hn]
    · exact initEmployees_mem u seeds rest _ e h2

theorem initEmployees_all_hp (u : RandStream) (seeds : List Nat) :
    ∀ (nodes : List Nat) (t : Nat), (∀ x ∈ nodes, x ∈ seeds) →
      ∀ e ∈ (initEmployees u seeds nodes t).1, e.status = "high_performer"
  | [], _, _, e, h => by simp [initEmployees] at h
  | node :: rest, t, hall, e, h => by
    have hstep : (initEmployees u seeds (node :: rest) t).1 =
        (⟨node, if node ∈ seeds then "high_performer" else "neutral",
          (choiceCapacity u t).1, 0, 0⟩ : Employee) ::
          (initEmployees u seeds rest (choiceCapacity u t).2).1 := rfl
    rw [hstep] at h
    rcases List.mem_cons.mp h with h1 | h2
    · subst h1
      simp [hall node (by simp)]
    · exact initEmployees_all_hp u seeds rest _
        (fun x hx => hall x (by simp [hx])) e h2

theorem step_valid (u : RandStream) (m : PerformanceInfluenceModel)
    (t N : Nat) (hlen : m.employees.length = N)
    (hval : ∀ e ∈ m.employees, e.status ∈ validStatuses)
    (hhist : ∀ snap ∈ m.history,
      snap.length = N ∧ ∀ s ∈ snap, s ∈ validStatuses) :
    (stepModel u m t).1.employees.length = N ∧
    (∀ e ∈ (stepModel u m t).1.employees, e.status ∈ validStatuses) ∧
    (∀ snap ∈ (stepModel u m t).1.history,
      snap.length = N ∧ ∀ s ∈ snap, s ∈ validStatuses) := by
  have hagree := interactPass_agrees u m.G m.influence_probability
    m.employees (List.range m.employees.length) m.employees t
    (agreesExceptTimer_refl m.employees)
  have hlen1 : (interactPass u m.G m.influence_probability
      (List.range m.employees.length) m.employees t).1.length =
      m.employees.length := hagree.1.symm
  have hval1 : ∀ e ∈ (interactPass u m.G m.influence_probability
      (List.range m.employees.length) m.employees t).1,
      e.status ∈ validStatuses := agrees_status_mem hagree hval
  have hemp : (stepModel u m t).1.employees =
      (updatePass u
        (interactPass u m.G m.influence_probability
          (List.range m.employees.length) m.employees t).1
        (interactPass u m.G m.influence_probability
          (List.range m.employees.length) m.employees t).2).1 := rfl
  have hlen2 : (stepModel u m t).1.employees.length = N := by
    rw [hemp, updatePass_length, hlen1, hlen]
  have hval2 : ∀ e ∈ (stepModel u m t).1.employees,
      e.status ∈ validStatuses := by
    intro e he
    rw [hemp] at he
    obtain ⟨e0, he0, t', ht'⟩ := updatePass_mem u _ _ e he
    rw [ht']
    exact update_status_valid e0 u t' (hval1 e0 he0)
  refine ⟨hlen2, hval2, ?_⟩
  intro snap hsnap
  have hh : (stepModel u m t).1.history =
      m.history ++ [(stepModel u m t).1.employees.map (·.status)] := rfl
  rw [hh] at hsnap
  rcases List.mem_append.mp hsnap with hold | hnew
  · exact hhist snap hold
  · have hs : snap = (stepModel u m t).1.employees.map (·.status) := by
      simpa using hnew
    subst hs
    constructor
    · rw [List.length_map, hlen2]
    · intro s hsm
      obtain ⟨e, he, hes⟩ := List.mem_map.mp hsm
      rw [← hes]
      exact hval2 e he

theorem runSteps_valid (u : RandStream) :
    ∀ (n : Nat) (m : PerformanceInfluenceModel) (t N : Nat),
      m.employees.length = N →
      (∀ e ∈ m.employees, e.status ∈ validStatuses) →
      (∀ snap ∈ m.history,
        snap.length = N ∧ ∀ s ∈ snap, s ∈ validStatuses) →
      (runSteps u m t n).1.employees.length = N ∧
      (∀ e ∈ (runSteps u m t n).1.employees, e.status ∈ validStatuses) ∧
      (∀ snap ∈ (runSteps u m t n).1.history,
        snap.length = N ∧ ∀ s ∈ snap, s ∈ validStatuses)
  | 0, m, t, N, h1, h2, h3 => ⟨h1, h2, h3⟩
  | n + 1, m, t, N, h1, h2, h3 => by
    have hs := step_valid u m t N h1 h2 h3
    have hrw : runSteps u m t (n + 1) =
        runSteps u (stepModel u m t).1 (stepModel u m t).2 n := rfl
    rw [hrw]
    exact runSteps_valid u n _ _ N hs.1 hs.2.1 hs.2.2

theorem initModel_employees (u : RandStream) (params : Params) (t : Nat)
    (r : PerformanceInfluenceModel × Nat)
    (hinit : initModel u params t = .ok r) :
    ∀ e ∈ r.1.employees,
      (e.status = "high_performer" ∨ e.status = "neutral") ∧
      e.influence_timer = 0 ∧ e.engagement_timer = 0 := by
  rcases r with ⟨m0, t0⟩
  cases hBA : barabasi_albert_graph u params.N 3 t with
  | error msg =>
    simp only [initModel, hBA] at hinit
    exact Except.noConfusion hinit
  | ok rG =>
    cases hS : sample u (List.range params.N) params.initial_high_performers
        rG.2 with
    | error msg =>
      simp only [initModel, hBA, hS] at hinit
      exact Except.noConfusion hinit
    | ok rS =>
      simp only [initModel, hBA, hS] at hinit
      obtain ⟨h1, h2⟩ := Prod.mk.injEq .. |>.mp (Except.ok.inj hinit)
      subst h1
      intro e he
      exact initEmployees_mem u rS.1 _ _ e he

theorem update_status_hp_et0 (e : Employee) (u : RandStream) (t : Nat)
    (hs : e.status = "high_performer") (he : e.engagement_timer = 0) :
    e.update_status u t = (e, t) := by
  have h1 : ¬ (e.status = "neutral" ∧ 0 < e.influence_timer) := by
    intro hc
    rw [hs] at hc
    exact absurd hc.1 (by decide)
  have h2 : ¬ (e.status = "high_performer" ∧ 0 < e.engagement_timer) := by
    intro hc
    omega
  simp only [Employee.update_status]
  rw [if_neg h1, if_neg h2]

theorem step_preserves_seed (u : RandStream) (m : PerformanceInfluenceModel)
    (t i : Nat) (hs : (m.employees.getD i default).status = "high_performer")
    (he : (m.employees.getD i default).engagement_timer = 0) :
    ((stepModel u m t).1.employees.getD i default).status =
      "high_performer" ∧
    ((stepModel u m t).1.employees.getD i default).engagement_timer = 0 := by
  have hagree := interactPass_agrees u m.G m.influence_probability
    m.employees (List.range m.employees.length) m.employees t
    (agreesExceptTimer_refl m.employees)
  have hi : i < m.employees.length := by
    by_contra hni
    rw [List.getD_eq_default _ _ (by omega)] at hs
    exact absurd hs (by decide)
  have hst1 : ((interactPass u m.G m.influence_probability
      (List.range m.employees.length) m.employees t).1.getD i
        default).status = "high_performer" := by
    rw [(hagree.2 i).1]
    exact hs
  have het1 : ((interactPass u m.G m.influence_probability
      (List.range m.employees.length) m.employees t).1.getD i
        default).engagement_timer = 0 := by
    rw [(hagree.2 i).2.2.1]
    exact he
  have hilen : i < (interactPass u m.G m.influence_probability
      (List.range m.employees.length) m.employees t).1.length := by
    have := hagree.1
    omega
  obtain ⟨t', ht'⟩ := updatePass_getD u
    (interactPass u m.G m.influence_probability
      (List.range m.employees.length) m.employees t).1
    (interactPass u m.G m.influence_probability
      (List.range m.employees.length) m.employees t).2 i hilen
  have hemp : (stepModel u m t).1.employees.getD i default =
      (((interactPass u m.G m.influence_probability
        (List.range m.employees.length) m.employees t).1.getD i
          default).update_status u t').1 := ht'
  rw [hemp, update_status_hp_et0 _ u t' hst1 het1]
  exact ⟨hst1, het1⟩

theorem runSteps_seed (u : RandStream) :
    ∀ (n : Nat) (m : PerformanceInfluenceModel) (t i : Nat),
      (m.employees.getD i default).status = "high_performer" →
      (m.employees.getD i default).engagement_timer = 0 →
      ((runSteps u m t n).1.employees.getD i default).status =
        "high_performer" ∧
      ((runSteps u m t n).1.employees.getD i default).engagement_timer = 0
  | 0, _, _, _, hs, he => ⟨hs, he⟩
  | n + 1, m, t, i, hs, he => by
    have hstep := step_preserves_seed u m t i hs he
    have hrw : runSteps u m t (n + 1) =
        runSteps u (stepModel u m t).1 (stepModel u m t).2 n := rfl
    rw [hrw]
    exact runSteps_seed u n _ _ i hstep.1 hstep.2

theorem initModel_fields (u : RandStream) (params : Params) (t : Nat)
    (r : PerformanceInfluenceModel × Nat)
    (hinit : initModel u params t = .ok r) :
    r.1.influence_probability = params.influence_probability ∧
    r.1.influence_counts = ([] : List Nat) := by
  rcases r with ⟨m0, t0⟩
  cases hBA : barabasi_albert_graph u params.N 3 t with
  | error msg =>
    simp only [initModel, hBA] at hinit
    exact Except.noConfusion hinit
  | ok rG =>
    cases hS : sample u (List.range params.N) params.initial_high_performers
        rG.2 with
    | error msg =>
      simp only [initModel, hBA, hS] at hinit
      exact Except.noConfusion hinit
    | ok rS =>
      simp only [initModel, hBA, hS] at hinit
      obtain ⟨h1, h2⟩ := Prod.mk.injEq .. |>.mp (Except.ok.inj hinit)
      subst h1
      exact ⟨rfl, rfl⟩

theorem update_status_neutral0 (e : Employee) (u : RandStream) (t : Nat)
    (hs : e.status = "neutral") (ht : e.influence_timer = 0) :
    e.update_status u t = (e, t) := by
  have h1 : ¬ (e.status = "neutral" ∧ 0 < e.influence_timer) := by
    intro hc
    omega
  have h2 : ¬ (e.status = "high_performer" ∧ 0 < e.engagement_timer) := by
    intro hc
    rw [hs] at hc
    exact absurd hc.1 (by decide)
  simp only [Employee.update_status]
  rw [if_neg h1, if_neg h2]

theorem update_status_result_neutral (e : Employee) (u : RandStream)
    (t : Nat) (h : (e.update_status u t).1.status = "neutral") :
    e.status = "neutral" := by
  rcases update_status_cases e u t with hs | hs | hs
  · exact hs.symm.trans h
  · rw [hs.2] at h
    exact absurd h (by decide)
  · rcases hs.2 with h2 | h2 <;> rw [h2] at h <;> exact absurd h (by decide)

theorem interactLoop_zero (u : RandStream) (hn : NonnegStream u) (cap : Nat) :
    ∀ (nbrs : List Nat) (es : List Employee) (t : Nat),
      (interactLoop u cap 0 nbrs es t).1 = es
  | [], _, _ => rfl
  | nId :: rest, es, t => by
    by_cases hst : (es.getD nId default).status = "neutral"
    · have hd : ¬ u t < 0 * (1 / ((es.getD nId default).capacity : ℚ)) := by
        rw [zero_mul]
        exact not_lt.2 (hn t)
      have heq : interactLoop u cap 0 (nId :: rest) es t =
          interactLoop u cap 0 rest es (t + 1) := by
        simp only [interactLoop]
        rw [if_pos hst, if_neg hd]
      rw [heq]
      exact interactLoop_zero u hn cap rest es (t + 1)
    · have heq : interactLoop u cap 0 (nId :: rest) es t =
          interactLoop u cap 0 rest es t := by
        simp only [interactLoop]
        rw [if_neg hst]
      rw [heq]
      exact interactLoop_zero u hn cap rest es t

theorem interact_zero (selfE : Employee) (u : RandStream)
    (hn : NonnegStream u) (nbrs : List Nat) (es : List Employee) (t : Nat) :
    (selfE.interact u 0 nbrs es t).1 = es := by
  by_cases hs : selfE.status = "high_performer"
  · have heq : selfE.interact u 0 nbrs es t =
        interactLoop u selfE.capacity 0 nbrs es t := by
      simp only [Employee.interact]
      rw [if_pos hs]
    rw [heq]
    exact interactLoop_zero u hn selfE.capacity nbrs es t
  · have heq : selfE.interact u 0 nbrs es t = (es, t) := by
      simp only [Employee.interact]
      rw [if_neg hs]
    rw [heq]

theorem interactPass_zero (u : RandStream) (hn : NonnegStream u) (G : Graph) :
    ∀ (nodes : List Nat) (es : List Employee) (t : Nat),
      (interactPass u G 0 nodes es t).1 = es
  | [], _, _ => rfl
  | node :: rest, es, t => by
    have h1 : ((es.getD node default).interact u 0 (G.neighbors node) es
        t).1 = es := interact_zero _ u hn _ es t
    calc (interactPass u G 0 (node :: rest) es t).1
        = (interactPass u G 0 rest
            ((es.getD node default).interact u 0 (G.neighbors node) es t).1
            ((es.getD node default).interact u 0 (G.neighbors node) es
              t).2).1 := rfl
      _ = (interactPass u G 0 rest es
            ((es.getD node default).interact u 0 (G.neighbors node) es
              t).2).1 := by rw [h1]
      _ = es := interactPass_zero u hn G rest es _

theorem updatePass_influences_zero (u : RandStream) :
    ∀ (es : List Employee) (t : Nat),
      (∀ e ∈ es, e.status = "neutral" → e.influence_timer = 0) →
      (updatePass u es t).2.1 = 0
  | [], _, _ => rfl
  | e :: rest, t, h => by
    have hstep : (updatePass u (e :: rest) t).2.1 =
        (if e.status = "neutral" ∧
            ((e.update_status u t).1).status = "high_performer"
         then (updatePass u rest (e.update_status u t).2).2.1 + 1
         else (updatePass u rest (e.update_status u t).2).2.1) := rfl
    rw [hstep]
    have hcond : ¬ (e.status = "neutral" ∧
        (e.update_status u t).1.status = "high_performer") := by
      intro hc
      have h0 := h e (by simp) hc.1
      have hunch := update_status_neutral0 e u t hc.1 h0
      rw [hunch] at hc
      exact absurd (hc.1.symm.trans hc.2) (by decide)
    rw [if_neg hcond]
    exact updatePass_influences_zero u rest _ fun e' he' => h e' (by simp [he'])

theorem updatePass_Inv (u : RandStream) (es : List Employee) (t : Nat)
    (h : ∀ e ∈ es, e.status = "neutral" → e.influence_timer = 0) :
    ∀ e' ∈ (updatePass u es t).1,
      e'.status = "neutral" → e'.influence_timer = 0 := by
  intro e' he' hn
  obtain ⟨e, he, t', ht'⟩ := updatePass_mem u es t e' he'
  have hen : e.status = "neutral" :=
    update_status_result_neutral e u t' (by rw [← ht']; exact hn)
  have h0 := h e he hen
  rw [ht', update_status_neutral0 e u t' hen h0]
  exact h0

theorem step_zero_influence (u : RandStream) (hn : NonnegStream u)
    (m : PerformanceInfluenceModel) (t : Nat)
    (hp0 : m.influence_probability = 0)
    (hInv : ∀ e ∈ m.employees, e.status = "neutral" →
      e.influence_timer = 0) :
    (stepModel u m t).1.influence_probability = 0 ∧
    (∀ e ∈ (stepModel u m t).1.employees, e.status = "neutral" →
      e.influence_timer = 0) ∧
    (stepModel u m t).1.influence_counts = m.influence_counts ++ [0] ∧
    (∀ i, (m.employees.getD i default).status = "neutral" →
      ((stepModel u m t).1.employees.getD i default).status = "neutral") := by
  have hes1 : (interactPass u m.G m.influence_probability
      (List.range m.employees.length) m.employees t).1 = m.employees := by
    rw [hp0]
    exact interactPass_zero u hn m.G _ _ _
  have hemp : (stepModel u m t).1.employees =
      (updatePass u
        (interactPass u m.G m.influence_probability
          (List.range m.employees.length) m.employees t).1
        (interactPass u m.G m.influence_probability
          (List.range m.employees.length) m.employees t).2).1 := rfl
  have hcnt : (stepModel u m t).1.influence_counts =
      m.influence_counts ++
        [(updatePass u
          (interactPass u m.G m.influence_probability
            (List.range m.employees.length) m.employees t).1
          (interactPass u m.G m.influence_probability
            (List.range m.employees.length) m.employees t).2).2.1] := rfl
  refine ⟨hp0, ?_, ?_, ?_⟩
  · intro e' he' hn'
    rw [hemp, hes1] at he'
    exact updatePass_Inv u m.employees _ hInv e' he' hn'
  · rw [hcnt, hes1, updatePass_influences_zero u m.employees _ hInv]
  · intro i hni
    have hi : i < m.employees.length := by
      by_contra hcon
      rw [List.getD_eq_default _ _ (by omega)] at hni
      exact absurd hni (by decide)
    have hilen : i < (interactPass u m.G m.influence_probability
        (List.range m.employees.length) m.employees t).1.length := by
      rw [hes1]
      exact hi
    obtain ⟨t', ht'⟩ := updatePass_getD u
      (interactPass u m.G m.influence_probability
        (List.range m.employees.length) m.employees t).1
      (interactPass u m.G m.influence_probability
        (List.range m.employees.length) m.employees t).2 i hilen
    rw [hemp, ht', hes1]
    have hmem : m.employees.getD i default ∈ m.employees := by
      rw [List.getD_eq_getElem _ _ hi]
      exact List.getElem_mem hi
    have h0 := hInv _ hmem hni
    rw [update_status_neutral0 _ u t' hni h0]
    exact hni

theorem runSteps_zero_influence (u : RandStream) (hn : NonnegStream u) :
    ∀ (n : Nat) (m : PerformanceInfluenceModel) (t : Nat),
      m.influence_probability = 0 →
      (∀ e ∈ m.employees, e.status = "neutral" →
        e.influence_timer = 0) →
      (∀ i, (m.employees.getD i default).status = "neutral" →
        ((runSteps u m t n).1.employees.getD i default).status =
          "neutral") ∧
      (runSteps u m t n).1.influence_counts =
        m.influence_counts ++ List.replicate n 0
  | 0, m, t, _, _ => ⟨fun _ h => h, by simp [runSteps]⟩
  | n + 1, m, t, hp0, hInv => by
    obtain ⟨hp1, hInv1, hcnt1, hpt1⟩ := step_zero_influence u hn m t hp0 hInv
    have hrw : runSteps u m t (n + 1) =
        runSteps u (stepModel u m t).1 (stepModel u m t).2 n := rfl
    obtain ⟨ha, hb⟩ := runSteps_zero_influence u hn n (stepModel u m t).1
      (stepModel u m t).2 hp1 hInv1
    constructor
    · intro i hni
      rw [hrw]
      exact ha i (hpt1 i hni)
    · rw [hrw, hb, hcnt1, List.append_assoc]
      simp [List.replicate_succ]

theorem natBelow_lt (r : ℚ) (n : Nat) (hn : 0 < n) : natBelow r n < n := by
  have h : natBelow r n ≤ n - 1 := Nat.min_le_right _ _
  omega

theorem mem_getD_or_eraseIdx :
    ∀ (l : List Nat) (x j : Nat), j < l.length → x ∈ l →
      x = l.getD j 0 ∨ x ∈ l.eraseIdx j
  | [], x, j, hj, hx => by simp at hx
  | a :: l, x, 0, _, hx => by
    rcases List.mem_cons.mp hx with h | h
    · left
      simpa using h
    · right
      simpa [List.eraseIdx] using h
  | a :: l, x, j + 1, hj, hx => by
    rcases List.mem_cons.mp hx with h | h
    · right
      show x ∈ a :: l.eraseIdx j
      exact List.mem_cons.mpr (Or.inl h)
    · rcases mem_getD_or_eraseIdx l x j (by simpa using hj) h with h1 | h1
      · left
        simpa using h1
      · right
        show x ∈ a :: l.eraseIdx j
        exact List.mem_cons.mpr (Or.inr h1)

theorem sampleLoop_mem (u : RandStream) :
    ∀ (k : Nat) (pool : List Nat) (t x : Nat), pool.length = k → x ∈ pool →
      x ∈ (sampleLoop u k pool t).1
  | 0, pool, _, x, hk, hx => by
    have hnil : pool = [] := List.eq_nil_of_length_eq_zero hk
    subst hnil
    simp at hx
  | k + 1, pool, t, x, hk, hx => by
    have hpos : 0 < pool.length := by omega
    have hj : natBelow (u t) pool.length < pool.length :=
      natBelow_lt (u t) pool.length hpos
    have hstep : (sampleLoop u (k + 1) pool t).1 =
        pool.getD (natBelow (u t) pool.length) 0 ::
          (sampleLoop u k (pool.eraseIdx (natBelow (u t) pool.length))
            (t + 1)).1 := rfl
    rw [hstep]
    rcases mem_getD_or_eraseIdx pool x _ hj hx with h | h
    · exact List.mem_cons.mpr (Or.inl h)
    · refine List.mem_cons.mpr (Or.inr ?_)
      refine sampleLoop_mem u k _ (t + 1) x ?_ h
      rw [List.length_eraseIdx]
      simp only [hj, if_pos]
      omega

/-! Claims -/

/-- C8: for window size `w ≥ 1`, `moving_average` returns the input
unchanged when the input length is below `w`, and otherwise returns
exactly `L - w + 1` values, the `i`-th being the arithmetic mean of the
`i`-th contiguous window of `w` input elements, in order. -/
theorem moving_average_correct (data : List ℚ) (w : Nat) (hw : 1 ≤ w) :
    (data.length < w → moving_average data w = data) ∧
    (w ≤ data.length →
      (moving_average data w).length = data.length - w + 1 ∧
      ∀ i, i < data.length - w + 1 →
        (moving_average data w).getD i 0 =
          ((data.drop i).take w).sum / (w : ℚ)) := by
  constructor
  · intro h
    simp [moving_average, h]
  · intro h
    have hnot : ¬ data.length < w := not_lt.2 h
    have hma : moving_average data w =
        convolveValid data (List.replicate w (1 / (w : ℚ))) := by
      simp [moving_average, hnot]
    refine ⟨by simp [hma, convolveValid], ?_⟩
    intro i hi
    have hrange : ((List.range (data.length - w + 1)).map fun i =>
        ((List.range w).map fun j =>
          data.getD (i + j) 0 *
            (List.replicate w (1 / (w : ℚ))).getD (w - 1 - j) 0).sum).getD i 0 =
        ((List.range w).map fun j =>
          data.getD (i + j) 0 *
            (List.replicate w (1 / (w : ℚ))).getD (w - 1 - j) 0).sum := by
      rw [List.getD_eq_getElem _ _ (by simpa using hi)]
      simp
    rw [hma]
    unfold convolveValid
    simp only [List.length_replicate]
    rw [hrange]
    have hker : ((List.range w).map fun j =>
        data.getD (i + j) 0 *
          (List.replicate w (1 / (w : ℚ))).getD (w - 1 - j) 0) =
        (List.range w).map fun j => data.getD (i + j) 0 * (1 / (w : ℚ)) := by
      apply List.map_congr_left
      intro j hj
      have hjw : j < w := by simpa using hj
      have hlt : w - 1 - j < w := by omega
      have hrep : (List.replicate w ((1 : ℚ) / (w : ℚ))).getD (w - 1 - j) 0 =
          1 / (w : ℚ) := by
        rw [List.getD_eq_getElem _ _ (by simpa using hlt)]
        simp
      rw [hrep]
    rw [hker, sum_map_mul_const, window_take_drop data i w (by omega),
      mul_one_div]

/-- C8 witness: the theorem applied at `data = [1, 2, 3]`, `w = 2`,
`i = 1`, where the smoothed output has length 2 and second element
`5/2`. -/
theorem moving_average_correct_witness :
    (moving_average [1, 2, 3] 2).length = ([1, 2, 3] : List ℚ).length - 2 + 1 ∧
    (moving_average [1, 2, 3] 2).getD 1 0 =
      ((([1, 2, 3] : List ℚ).drop 1).take 2).sum / (2 : ℚ) := by
  have h := (moving_average_correct [1, 2, 3] 2 (by decide)).2 (by decide)
  exact ⟨h.1, h.2 1 (by decide)⟩

/-- C4: a successful interaction by a high performer on a neutral
neighbor sets that neighbor's `influence_timer` to the influencer's
`capacity` (first conjunct), and a neutral agent whose `influence_timer`
reaches zero in `update_status` transitions to "high_performer" with
`engagement_timer` set to the fixed constant 3 (second conjunct). -/
theorem timer_state_machine :
    (∀ (selfE : Employee) (u : RandStream) (p : ℚ) (es : List Employee)
        (nId t : Nat),
      selfE.status = "high_performer" →
      (es.getD nId default).status = "neutral" →
      u t < p * (1 / ((es.getD nId default).capacity : ℚ)) →
      nId < es.length →
      ((selfE.interact u p [nId] es t).1.getD nId default).influence_timer =
        selfE.capacity) ∧
    (∀ (e : Employee) (u : RandStream) (t : Nat),
      e.status = "neutral" → e.influence_timer = 1 →
      (e.update_status u t).1.status = "high_performer" ∧
      (e.update_status u t).1.engagement_timer = 3) := by
  constructor
  · intro selfE u p es nId t hs hn hd hb
    have heq : (selfE.interact u p [nId] es t).1 =
        es.set nId
          { es.getD nId default with influence_timer := selfE.capacity } := by
      simp only [Employee.interact]
      rw [if_pos hs]
      simp only [interactLoop]
      rw [if_pos hn, if_pos hd]
    rw [heq, getD_set_self _ _ _ hb]
  · intro e u t hn hi
    have h1 : e.status = "neutral" ∧ 0 < e.influence_timer := ⟨hn, by omega⟩
    have h2 : e.influence_timer - 1 = 0 := by omega
    constructor
    · simp only [Employee.update_status]
      rw [if_pos h1, if_pos h2]
    · simp only [Employee.update_status]
      rw [if_pos h1, if_pos h2]

/-- C4 witness: a high performer of capacity 2 influencing a neutral
colleague of capacity 1 under `p = 1` sets the colleague's timer to 2,
and a neutral employee with `influence_timer = 1` is promoted with
`engagement_timer = 3`. -/
theorem timer_state_machine_witness :
    ((Employee.interact ⟨0, "high_performer", 2, 0, 0⟩ zeroStream 1 [1]
        [⟨0, "high_performer", 2, 0, 0⟩, ⟨1, "neutral", 1, 0, 0⟩] 0).1.getD 1
        default).influence_timer =
      (⟨0, "high_performer", 2, 0, 0⟩ : Employee).capacity ∧
    ((⟨1, "neutral", 1, 1, 0⟩ : Employee).update_status zeroStream 0).1.status =
      "high_performer" ∧
    ((⟨1, "neutral", 1, 1, 0⟩ : Employee).update_status zeroStream
        0).1.engagement_timer = 3 := by
  refine ⟨?_, ?_⟩
  · exact timer_state_machine.1 ⟨0, "high_performer", 2, 0, 0⟩ zeroStream 1
      [⟨0, "high_performer", 2, 0, 0⟩, ⟨1, "neutral", 1, 0, 0⟩] 1 0 rfl
      (by decide) (by norm_num [zeroStream]) (by decide)
  · exact timer_state_machine.2 ⟨1, "neutral", 1, 1, 0⟩ zeroStream 0 rfl rfl

/-- C5: during one `step`, an agent's status becomes "engaged" or
"disengaged" only if the agent entered the step as "high_performer";
neither status is ever entered directly from "neutral".  (This covers
every step of every run, since `m` ranges over all model states.) -/
theorem engaged_only_from_high_performer
    (u : RandStream) (m : PerformanceInfluenceModel) (t i : Nat)
    (hi : i < m.employees.length)
    (hpost : ((stepModel u m t).1.employees.getD i default).status = "engaged" ∨
      ((stepModel u m t).1.employees.getD i default).status = "disengaged") :
    (m.employees.getD i default).status =
      ((stepModel u m t).1.employees.getD i default).status ∨
    (m.employees.getD i default).status = "high_performer" := by
  have hagree : AgreesExceptTimer m.employees
      (interactPass u m.G m.influence_probability
        (List.range m.employees.length) m.employees t).1 :=
    interactPass_agrees u m.G m.influence_probability m.employees
      (List.range m.employees.length) m.employees t
      (agreesExceptTimer_refl m.employees)
  have hstat1 := (hagree.2 i).1
  have hilen : i < (interactPass u m.G m.influence_probability
      (List.range m.employees.length) m.employees t).1.length := by
    have := hagree.1
    omega
  obtain ⟨t', ht'⟩ := updatePass_getD u
    (interactPass u m.G m.influence_probability
      (List.range m.employees.length) m.employees t).1
    (interactPass u m.G m.influence_probability
      (List.range m.employees.length) m.employees t).2 i hilen
  have hpostD : (stepModel u m t).1.employees.getD i default =
      (((interactPass u m.G m.influence_probability
          (List.range m.employees.length) m.employees t).1.getD i
            default).update_status u t').1 := ht'
  rcases update_status_cases
      ((interactPass u m.G m.influence_probability
        (List.range m.employees.length) m.employees t).1.getD i default)
      u t' with hsame | hmid | hhp
  · left
    rw [hpostD, hsame]
    exact hstat1.symm
  · exfalso
    rw [hpostD, hmid.2] at hpost
    rcases hpost with h | h
    · exact absurd h (by decide)
    · exact absurd h (by decide)
  · right
    rw [← hstat1]
    exact hhp.1

/-- C5 witness: a lone high performer with `engagement_timer = 1`
resolves to "disengaged" (the all-zero stream fails the coin flip)
during one step; the theorem reports it entered the step as
"high_performer". -/
theorem engaged_only_from_high_performer_witness :
    ((⟨1, 0, ⟨1, []⟩, [⟨0, "high_performer", 1, 0, 1⟩], [], [], [], []⟩ :
        PerformanceInfluenceModel).employees.getD 0 default).status =
      ((stepModel zeroStream
        ⟨1, 0, ⟨1, []⟩, [⟨0, "high_performer", 1, 0, 1⟩], [], [], [], []⟩
        0).1.employees.getD 0 default).status ∨
    ((⟨1, 0, ⟨1, []⟩, [⟨0, "high_performer", 1, 0, 1⟩], [], [], [], []⟩ :
        PerformanceInfluenceModel).employees.getD 0 default).status =
      "high_performer" :=
  engaged_only_from_high_performer zeroStream
    ⟨1, 0, ⟨1, []⟩, [⟨0, "high_performer", 1, 0, 1⟩], [], [], [], []⟩ 0 0
    (by decide)
    (by norm_num [stepModel, interactPass, Employee.interact, interactLoop,
      updatePass, Employee.update_status, Graph.neighbors, zeroStream_apply])

/-- C3: executing one step by iterating the interaction rule over the
live agent mapping (`stepModel`, exactly as
`PerformanceInfluenceModel.step` does) produces the same post-step state,
metric entries and random consumption as computing all proposed mutations
against an immutable snapshot of the pre-step statuses and then
committing them (`stepSnapshot`): the outcome of a step never depends on
neighbors already mutated earlier in the same step, because the
interaction pass writes only `influence_timer` fields and reads only
statuses and capacities, which that pass never changes. -/
theorem step_live_eq_snapshot (u : RandStream)
    (m : PerformanceInfluenceModel) (t : Nat) :
    stepModel u m t = stepSnapshot u m t := by
  have h := interactPass_eq_commit u m.G m.influence_probability m.employees
    (List.range m.employees.length) m.employees t
    (agreesExceptTimer_refl m.employees)
  simp only [stepModel, stepSnapshot]
  rw [h]

/-- C10: when several high performers succeed on the same neutral agent
within one interaction pass, each success overwrites the target's
`influence_timer`, so afterwards the timer equals the value recorded by
the last successful proposal in iteration order — and each proposal's
recorded value is, by construction of `proposeLoop`, the capacity of the
influencer that generated it. -/
theorem last_success_overwrites (u : RandStream)
    (m : PerformanceInfluenceModel) (t c : Nat) (q : Nat × Nat)
    (hc : c < m.employees.length)
    (hlast : (proposalsFor
        (proposePass u m.employees m.G m.influence_probability
          (List.range m.employees.length) t).1 c).getLast? = some q) :
    ((interactPass u m.G m.influence_probability
        (List.range m.employees.length) m.employees t).1.getD c
          default).influence_timer = q.2 := by
  have h := interactPass_eq_commit u m.G m.influence_probability m.employees
    (List.range m.employees.length) m.employees t
    (agreesExceptTimer_refl m.employees)
  rw [h]
  rw [commitProps_getD_some _ _ _ q hc hlast]

/-- C10 witness: high performers 0 (capacity 2) and 1 (capacity 3) both
succeed on neutral agent 2 under `p = 1`; afterwards agent 2's timer is
3, the capacity of the later influencer in iteration order. -/
theorem last_success_overwrites_witness :
    ((interactPass zeroStream
        (⟨3, 1, ⟨3, [(0, 2), (1, 2)]⟩,
          [⟨0, "high_performer", 2, 0, 0⟩, ⟨1, "high_performer", 3, 0, 0⟩,
           ⟨2, "neutral", 1, 0, 0⟩], [], [], [], []⟩ :
            PerformanceInfluenceModel).G
        (⟨3, 1, ⟨3, [(0, 2), (1, 2)]⟩,
          [⟨0, "high_performer", 2, 0, 0⟩, ⟨1, "high_performer", 3, 0, 0⟩,
           ⟨2, "neutral", 1, 0, 0⟩], [], [], [], []⟩ :
            PerformanceInfluenceModel).influence_probability
        (List.range
          (⟨3, 1, ⟨3, [(0, 2), (1, 2)]⟩,
            [⟨0, "high_performer", 2, 0, 0⟩, ⟨1, "high_performer", 3, 0, 0⟩,
             ⟨2, "neutral", 1, 0, 0⟩], [], [], [], []⟩ :
              PerformanceInfluenceModel).employees.length)
        (⟨3, 1, ⟨3, [(0, 2), (1, 2)]⟩,
          [⟨0, "high_performer", 2, 0, 0⟩, ⟨1, "high_performer", 3, 0, 0⟩,
           ⟨2, "neutral", 1, 0, 0⟩], [], [], [], []⟩ :
            PerformanceInfluenceModel).employees 0).1.getD 2
          default).influence_timer = ((2, 3) : Nat × Nat).2 :=
  last_success_overwrites zeroStream
    ⟨3, 1, ⟨3, [(0, 2), (1, 2)]⟩,
      [⟨0, "high_performer", 2, 0, 0⟩, ⟨1, "high_performer", 3, 0, 0⟩,
       ⟨2, "neutral", 1, 0, 0⟩], [], [], [], []⟩ 0 2 (2, 3) (by decide)
    (by
      norm_num [proposePass, proposeNode, proposeLoop, Graph.neighbors,
        proposalsFor, zeroStream_apply, List.range_succ, List.filter_cons]
      decide)

/-- C1: the whole run — graph construction, agent initialization and all
steps — consumes randomness only from the one explicit random source
(the stream and its starting index, which a seed determines), so two
runs with the same configuration and the same seed produce identical
per-step metric histories (influence counts, engaged counts, disengaged
counts and the per-step status history). -/
theorem same_seed_same_histories (u1 u2 : RandStream) (params : Params)
    (t1 t2 : Nat) (hu : u1 = u2) (ht : t1 = t2) :
    metricHistories (runSimulation u1 params t1) =
      metricHistories (runSimulation u2 params t2) := by
  subst hu
  subst ht
  rfl

/-- C1 witness: the theorem applied to two copies of the all-zero seeded
source at a concrete configuration. -/
theorem same_seed_same_histories_witness :
    metricHistories (runSimulation zeroStream ⟨4, 1, 1, 2⟩ 0) =
      metricHistories (runSimulation zeroStream ⟨4, 1, 1, 2⟩ 0) :=
  same_seed_same_histories zeroStream zeroStream ⟨4, 1, 1, 2⟩ 0 0 rfl rfl

/-- C2: for every configuration `initModel` accepts and after every
number of steps, every agent's status belongs to the configured status
set {high_performer, neutral, engaged, disengaged}, and in each per-step
snapshot recorded in `history` the counts of the four statuses sum to
exactly the configured node count `N`. -/
theorem status_membership_and_count_sum (u : RandStream) (params : Params)
    (t : Nat) (r : PerformanceInfluenceModel × Nat)
    (hinit : initModel u params t = .ok r) (n : Nat) :
    (∀ e ∈ (runSteps u r.1 r.2 n).1.employees, e.status ∈ validStatuses) ∧
    (∀ snap ∈ (runSteps u r.1 r.2 n).1.history,
      (validStatuses.map fun s => snap.count s).sum = params.N) := by
  rcases r with ⟨m0, t0⟩
  cases hBA : barabasi_albert_graph u params.N 3 t with
  | error msg =>
    simp only [initModel, hBA] at hinit
    exact Except.noConfusion hinit
  | ok rG =>
    cases hS : sample u (List.range params.N) params.initial_high_performers
        rG.2 with
    | error msg =>
      simp only [initModel, hBA, hS] at hinit
      exact Except.noConfusion hinit
    | ok rS =>
      simp only [initModel, hBA, hS] at hinit
      obtain ⟨h1, h2⟩ := Prod.mk.injEq .. |>.mp (Except.ok.inj hinit)
      subst h1
      subst h2
      have hlen : ((initEmployees u rS.1 (List.range params.N) rS.2).1).length
          = params.N := by
        rw [initEmployees_length, List.length_range]
      have hval : ∀ e ∈ (initEmployees u rS.1 (List.range params.N) rS.2).1,
          e.status ∈ validStatuses := by
        intro e he
        rcases (initEmployees_mem u rS.1 _ _ e he).1 with h | h <;>
          rw [h] <;> simp [validStatuses]
      obtain ⟨hL, hV, hH⟩ := runSteps_valid u n
        ⟨params.N, params.influence_probability, rG.1,
          (initEmployees u rS.1 (List.range params.N) rS.2).1,
          [], [], [], []⟩
        (initEmployees u rS.1 (List.range params.N) rS.2).2 params.N hlen hval
        (by intro snap hsnap; simp at hsnap)
      refine ⟨hV, ?_⟩
      intro snap hs
      rw [count_sum_eq_length snap (hH snap hs).2]
      exact (hH snap hs).1

/-- C2 witness: the theorem applied to the concrete run with `N = 4`,
one seed and probability 1, after one step. -/
theorem status_membership_and_count_sum_witness :
    (∀ e ∈ (runSteps zeroStream (exampleModel 1) 8 1).1.employees,
      e.status ∈ validStatuses) ∧
    (∀ snap ∈ (runSteps zeroStream (exampleModel 1) 8 1).1.history,
      (validStatuses.map fun s => snap.count s).sum =
        (⟨4, 1, 1, 0⟩ : Params).N) :=
  status_membership_and_count_sum zeroStream ⟨4, 1, 1, 0⟩ 0
    (exampleModel 1, 8) (initModel_eval 1 0) 1

/-- C9: every agent `initModel` creates starts with
`engagement_timer = 0` (first conjunct); an agent that is a
high performer with `engagement_timer = 0` stays "high_performer" at
every subsequent step of every run (second conjunct); hence an agent
initialized as a seed high performer never becomes "engaged" or
"disengaged" — only agents promoted from "neutral" (whose timer is set
to 3 on promotion) can (third conjunct). -/
theorem seed_high_performers_persist :
    (∀ (u : RandStream) (params : Params) (t : Nat)
        (r : PerformanceInfluenceModel × Nat),
      initModel u params t = .ok r →
      ∀ e ∈ r.1.employees, e.engagement_timer = 0) ∧
    (∀ (u : RandStream) (m : PerformanceInfluenceModel) (t i n : Nat),
      (m.employees.getD i default).status = "high_performer" →
      (m.employees.getD i default).engagement_timer = 0 →
      ((runSteps u m t n).1.employees.getD i default).status =
        "high_performer") ∧
    (∀ (u : RandStream) (params : Params) (t : Nat)
        (r : PerformanceInfluenceModel × Nat) (i n : Nat),
      initModel u params t = .ok r →
      (r.1.employees.getD i default).status = "high_performer" →
      ((runSteps u r.1 r.2 n).1.employees.getD i default).status ≠
        "engaged" ∧
      ((runSteps u r.1 r.2 n).1.employees.getD i default).status ≠
        "disengaged") := by
  refine ⟨?_, ?_, ?_⟩
  · intro u params t r hinit e he
    exact (initModel_employees u params t r hinit e he).2.2
  · intro u m t i n hs he
    exact (runSteps_seed u n m t i hs he).1
  · intro u params t r i n hinit hs
    have hi : i < r.1.employees.length := by
      by_contra hni
      rw [List.getD_eq_default _ _ (by omega)] at hs
      exact absurd hs (by decide)
    have hmem : r.1.employees.getD i default ∈ r.1.employees := by
      rw [List.getD_eq_getElem _ _ hi]
      exact List.getElem_mem hi
    have het := (initModel_employees u params t r hinit _ hmem).2.2
    have hfinal := (runSteps_seed u n r.1 r.2 i hs het).1
    rw [hfinal]
    exact ⟨by decide, by decide⟩

/-- C9 witness: in the concrete `N = 4` run, seed agent 0 has
`engagement_timer = 0` at creation and is still "high_performer" (hence
neither "engaged" nor "disengaged") after two steps. -/
theorem seed_high_performers_persist_witness :
    (⟨0, "high_performer", 1, 0, 0⟩ : Employee).engagement_timer = 0 ∧
    ((runSteps zeroStream (exampleModel 1) 8 2).1.employees.getD 0
        default).status = "high_performer" ∧
    ((runSteps zeroStream (exampleModel 1) 8 2).1.employees.getD 0
        default).status ≠ "engaged" :=
  ⟨seed_high_performers_persist.1 zeroStream ⟨4, 1, 1, 0⟩ 0
      (exampleModel 1, 8) (initModel_eval 1 0) ⟨0, "high_performer", 1, 0, 0⟩
      (by decide),
   seed_high_performers_persist.2.1 zeroStream (exampleModel 1) 8 0 2
      (by decide) (by decide),
   (seed_high_performers_persist.2.2 zeroStream ⟨4, 1, 1, 0⟩ 0
      (exampleModel 1, 8) 0 2 (initModel_eval 1 0) (by decide)).1⟩

/-- C6: with `influence_probability = 0` (and the random draws in
`[0, 1)` as `random.random()` guarantees), the interaction pass never
changes the employee store — no `influence_timer` is ever set (first
conjunct) — and over any number of steps of an initialized run every
neutral agent stays "neutral" and every recorded per-step influence
count is 0: no neutral→high_performer transition ever occurs (second
conjunct). -/
theorem zero_influence_stays_neutral :
    (∀ (u : RandStream), NonnegStream u →
      ∀ (G : Graph) (nodes : List Nat) (es : List Employee) (t : Nat),
        (interactPass u G 0 nodes es t).1 = es) ∧
    (∀ (u : RandStream), NonnegStream u →
      ∀ (params : Params) (t : Nat) (r : PerformanceInfluenceModel × Nat),
        params.influence_probability = 0 →
        initModel u params t = .ok r →
        ∀ (n : Nat),
          (∀ i, (r.1.employees.getD i default).status = "neutral" →
            ((runSteps u r.1 r.2 n).1.employees.getD i default).status =
              "neutral") ∧
          (runSteps u r.1 r.2 n).1.influence_counts =
            List.replicate n 0) := by
  constructor
  · intro u hn G nodes es t
    exact interactPass_zero u hn G nodes es t
  · intro u hn params t r hp0 hinit n
    have hInv : ∀ e ∈ r.1.employees, e.status = "neutral" →
        e.influence_timer = 0 := fun e he _ =>
      (initModel_employees u params t r hinit e he).2.1
    have hfields := initModel_fields u params t r hinit
    have hp0' : r.1.influence_probability = 0 := hfields.1.trans hp0
    obtain ⟨ha, hb⟩ := runSteps_zero_influence u hn n r.1 r.2 hp0' hInv
    refine ⟨ha, ?_⟩
    rw [hb, hfields.2]
    rfl

/-- C6 witness: a one-node interaction pass at probability 0 leaves the
store untouched, and in the concrete `N = 4`, `p = 0` run every neutral
agent (here agent 1) is still "neutral" after three steps while all
three recorded influence counts are 0. -/
theorem zero_influence_stays_neutral_witness :
    ((interactPass zeroStream ⟨1, []⟩ 0 [0] [⟨0, "neutral", 1, 0, 0⟩] 0).1 =
      [⟨0, "neutral", 1, 0, 0⟩]) ∧
    (((runSteps zeroStream (exampleModel 0) 8 3).1.employees.getD 1
        default).status = "neutral") ∧
    ((runSteps zeroStream (exampleModel 0) 8 3).1.influence_counts =
      List.replicate 3 0) :=
  ⟨zero_influence_stays_neutral.1 zeroStream (fun _ => le_refl 0) ⟨1, []⟩
      [0] [⟨0, "neutral", 1, 0, 0⟩] 0,
   (zero_influence_stays_neutral.2 zeroStream (fun _ => le_refl 0)
      ⟨4, 1, 0, 0⟩ 0 (exampleModel 0, 8) rfl (initModel_eval 0 0) 3).1 1
      (by decide),
   (zero_influence_stays_neutral.2 zeroStream (fun _ => le_refl 0)
      ⟨4, 1, 0, 0⟩ 0 (exampleModel 0, 8) rfl (initModel_eval 0 0) 3).2⟩

/-- C7: requesting `initial_high_performers` equal to `N` marks every
agent "high_performer" at step 0 (first conjunct: `random.sample` of all
`N` nodes with `k = N` returns every node, so every employee is
initialized as a seed); requesting more seeds than nodes makes the
constructor fail before any step runs — `initModel`, and hence the whole
`runSimulation`, returns an error (second conjunct). -/
theorem seed_count_boundary :
    (∀ (u : RandStream) (params : Params) (t : Nat)
        (r : PerformanceInfluenceModel × Nat),
      initModel u params t = .ok r →
      params.initial_high_performers = params.N →
      ∀ e ∈ r.1.employees, e.status = "high_performer") ∧
    (∀ (u : RandStream) (params : Params) (t : Nat),
      params.N < params.initial_high_performers →
      ∃ msg, initModel u params t = .error msg ∧
        runSimulation u params t = .error msg) := by
  constructor
  · intro u params t r hinit hkN
    rcases r with ⟨m0, t0⟩
    cases hBA : barabasi_albert_graph u params.N 3 t with
    | error msg =>
      simp only [initModel, hBA] at hinit
      exact Except.noConfusion hinit
    | ok rG =>
      cases hS : sample u (List.range params.N)
          params.initial_high_performers rG.2 with
      | error msg =>
        simp only [initModel, hBA, hS] at hinit
        exact Except.noConfusion hinit
      | ok rS =>
        simp only [initModel, hBA, hS] at hinit
        obtain ⟨h1, h2⟩ := Prod.mk.injEq .. |>.mp (Except.ok.inj hinit)
        subst h1
        have hcond : ¬ ((List.range params.N).length <
            params.initial_high_performers) := by
          rw [List.length_range, hkN]
          omega
        have hSeq : rS = sampleLoop u params.initial_high_performers
            (List.range params.N) rG.2 := by
          simp only [sample] at hS
          rw [if_neg hcond] at hS
          exact (Except.ok.inj hS).symm
        have hall : ∀ x ∈ List.range params.N, x ∈ rS.1 := by
          intro x hx
          rw [hSeq]
          exact sampleLoop_mem u params.initial_high_performers
            (List.range params.N) rG.2 x
            (by rw [List.length_range, hkN]) hx
        intro e he
        exact initEmployees_all_hp u rS.1 (List.range params.N) rS.2 hall e he
  · intro u params t hlt
    cases hBA : barabasi_albert_graph u params.N 3 t with
    | error msg =>
      refine ⟨msg, by simp only [initModel, hBA], ?_⟩
      simp only [runSimulation, initModel, hBA]
    | ok rG =>
      have hcond : (List.range params.N).length <
          params.initial_high_performers := by
        rw [List.length_range]
        omega
      have hS : sample u (List.range params.N)
          params.initial_high_performers rG.2 =
          .error "Sample larger than population or is negative" := by
        simp only [sample]
        rw [if_pos hcond]
      refine ⟨"Sample larger than population or is negative",
        by simp only [initModel, hBA, hS], ?_⟩
      simp only [runSimulation, initModel, hBA, hS]

/-- C7 witness: with `N = 4` and four seeds every agent (here agent 2)
is "high_performer" at step 0; with `N = 4` and five requested seeds the
run fails before any step. -/
theorem seed_count_boundary_witness :
    ((⟨2, "high_performer", 1, 0, 0⟩ : Employee) ∈
        (exampleModelSeeds 1).employees →
      (⟨2, "high_performer", 1, 0, 0⟩ : Employee).status =
        "high_performer") ∧
    (∃ msg, initModel zeroStream ⟨4, 5, 1, 0⟩ 0 = .error msg ∧
      runSimulation zeroStream ⟨4, 5, 1, 0⟩ 0 = .error msg) :=
  ⟨seed_count_boundary.1 zeroStream ⟨4, 4, 1, 0⟩ 0 (exampleModelSeeds 1, 11)
      (initModel_eval_seeds 1 0) rfl ⟨2, "high_performer", 1, 0, 0⟩,
   seed_count_boundary.2 zeroStream ⟨4, 5, 1, 0⟩ 0 (by decide)⟩

end App
